import Mathlib

/-!
Verification development for the `llm-core` package: a stateful conversation
engine with schema-constrained outputs and tool dispatch, plus a swarm sorting
engine that classifies item lists into categories.  The package's core is a
compiled extension module; the repository ships its Python surface
(`llm_core/__init__.py`), an installer, and a demo/test harness (`test.py`).
Components that live only in the compiled extension are modelled here from the
specification's description of them; the Python files are embedded directly.
-/

set_option autoImplicit false

namespace LlmCore

/-! ## Structured values and the schema validator -/

/-- Modelled from the spec: a candidate structured value (a key/value mapping
with primitive, object and array leaves) as validated by the Schema Validator,
which lives in the compiled extension.  Numeric values are modelled with
integers; only the type tag matters to validation. -/
inductive JValue where
  | str (s : String)
  | int (n : Int)
  | num (n : Int)
  | bool (b : Bool)
  | obj (fields : List (String × JValue))
  | arr (elems : List JValue)

/-- A schema property as constructed in `test.py`: a name, a primitive type
tag given as a string (`"string"`, `"integer"`, ...), and a description. -/
structure SchemaProperty where
  name : String
  property_type : String
  description : String
deriving DecidableEq

/-- Array item declaration; part of the package's public surface
(`SchemaItems` in `__init__.py`). -/
structure SchemaItems where
  item_type : String
  description : String
deriving DecidableEq

/-- A named schema with an ordered list of properties, as constructed in
`test.py` (`SimpleSchema(name=..., description=..., properties=[...])`). -/
structure SimpleSchema where
  name : String
  description : String
  properties : List SchemaProperty
deriving DecidableEq

/-- Modelled from the spec: a present property's value satisfies its declared
type tag.  The validator itself is in the compiled extension. -/
def typeMatches : String → JValue → Bool
  | "string", .str _ => true
  | "integer", .int _ => true
  | "number", .num _ => true
  | "number", .int _ => true
  | "boolean", .bool _ => true
  | "object", .obj _ => true
  | "array", .arr _ => true
  | _, _ => false

/-- Modelled from the spec: validate a candidate mapping against a schema —
every declared property is present with a value of its declared type, and no
undeclared top-level property is accepted.  (The spec's recursion into nested
schemas is not exercised by any claim and the flat shape used throughout
`test.py` is modelled.) -/
def validateArgs (schema : SimpleSchema) (args : List (String × JValue)) : Bool :=
  schema.properties.all (fun p =>
    match args.find? (fun q => q.1 = p.name) with
    | some q => typeMatches p.property_type q.2
    | none => false) &&
  args.all (fun q => schema.properties.any (fun p => p.name = q.1))

/-! ## Tool registry -/

/-- A tool's declared contract, as constructed in `test.py`
(`ToolDefinition(name=..., description=..., parameters=...)`). -/
structure ToolDefinition where
  name : String
  description : String
  parameters : SimpleSchema
deriving DecidableEq

/-- A `ToolDefinition` paired with an invocable implementation, as in
`test.py` (`Tool(definition=..., function=...)`).  `argNames` records the
implementation's declared argument names, which per the spec must match the
parameter schema's property names; the implementation returns a payload
string or an error description. -/
structure Tool where
  definition : ToolDefinition
  argNames : List String
  function : List (String × JValue) → Except String String

/-- Modelled from the spec: the implementation's argument names must match
the parameter schema's property names. -/
def toolWellFormed (t : Tool) : Bool :=
  t.argNames = t.definition.parameters.properties.map (fun p => p.name)

/-- Error taxonomy of the tool registry, from the spec's §7. -/
inductive ToolError where
  | duplicateToolName
  | unknownTool
  | schemaViolation
  | toolExecutionFailed (name : String) (cause : String)
deriving DecidableEq

/-- Modelled from the spec: `register(tool)` fails with `DuplicateToolName`
if a tool with the same name already exists in the session's active set;
otherwise the tool is added. -/
def register (reg : List Tool) (t : Tool) : Except ToolError (List Tool) :=
  if reg.any (fun u => u.definition.name = t.definition.name) then
    .error .duplicateToolName
  else
    .ok (reg ++ [t])

/-- Modelled from the spec: `resolve(name, arguments)` looks the tool up by
name (`UnknownTool` if absent), validates the arguments against its parameter
schema (`SchemaViolation` on mismatch, without invoking the implementation),
then invokes the bound implementation; an implementation-level error becomes
`ToolExecutionFailed` carrying the tool name and cause. -/
def resolve (reg : List Tool) (name : String) (args : List (String × JValue)) :
    Except ToolError String :=
  match reg.find? (fun u => u.definition.name = name) with
  | none => .error .unknownTool
  | some t =>
    if validateArgs t.definition.parameters args then
      match t.function args with
      | .ok payload => .ok payload
      | .error cause => .error (.toolExecutionFailed t.definition.name cause)
    else
      .error .schemaViolation

/-! ## Conversation engine -/

/-- Message roles, from the spec's data model. -/
inductive Role where
  | system
  | user
  | assistant
  | tool
deriving DecidableEq

/-- A model-requested tool invocation: name plus arguments. -/
structure ToolCallReq where
  name : String
  args : List (String × JValue)

/-- Modelled from the spec: a conversation Message — role, textual content,
the ordered tool invocations the turn requests, and a back-reference to the
tool call this message answers when it is a tool result. -/
structure Message where
  role : Role
  content : String
  tool_calls : List ToolCallReq
  answers_call : Option String

/-- The user Message appended by step 1 of `send`. -/
def userMessage (text : String) : Message :=
  { role := .user, content := text, tool_calls := [], answers_call := none }

/-- The final assistant Message appended by step 4 of `send`. -/
def assistantMessage (content : String) : Message :=
  { role := .assistant, content := content, tool_calls := [], answers_call := none }

/-- Modelled from the spec: one endpoint response — either a final assistant
reply, or a turn carrying one or more tool-call requests (whose content, if
any, is not surfaced to the caller). -/
inductive ModelResponse where
  | reply (content : String)
  | calls (reqs : List ToolCallReq) (content : String)

/-- Modelled from the spec: the outcome of one round trip to the remote
endpoint — a response, a transport failure, or a provider-side malformed
structured output. -/
inductive EndpointResult where
  | ok (r : ModelResponse)
  | transportError
  | invalidOutput

/-- Errors a `send` call surfaces to the caller, from the spec's §7. -/
inductive SendError where
  | endpointUnreachable
  | modelOutputInvalid
  | sessionBusy
deriving DecidableEq

/-- Modelled from the spec: the tool-result Message appended for one
requested call — the success payload, or a structured failure description,
never an unhandled crash. -/
def toolResultMessage (reg : List Tool) (req : ToolCallReq) : Message :=
  match resolve reg req.name req.args with
  | .ok payload =>
    { role := .tool, content := payload, tool_calls := [], answers_call := some req.name }
  | .error _ =>
    { role := .tool, content := "tool call failed", tool_calls := [],
      answers_call := some req.name }

/-- Conversation engine states, from the spec's §4.3 state machine. -/
inductive EngState where
  | idle
  | awaitingModel
  | processingToolCalls
deriving DecidableEq

/-- Modelled from the spec: per-session state — model identifier, system
prompt, active schema, active tool set, ordered message history (mutable by
append only), debug flag, and the §4.3 machine state. -/
structure Session where
  model_name : String
  system_prompt : Option String
  schema : Option SimpleSchema
  tools : List Tool
  history : List Message
  debug_out : Bool
  state : EngState

/-- Result of one `send` call: the updated session, the outcome, and the
counts of endpoint round trips and tool invocations it performed. -/
structure SendOutcome where
  session : Session
  result : Except SendError Message
  roundTrips : Nat
  invocations : Nat

/-- Intermediate state of the §4.3 request/response/tool-call loop. -/
structure LoopOut where
  history : List Message
  result : Except SendError Message
  roundTrips : Nat
  invocations : Nat

/-- Modelled from the spec: steps 2–4 of `send`.  The remote endpoint is
modelled as a script of round-trip outcomes consumed in order (each loop
iteration requires a new model response; an exhausted script behaves as a
transport failure).  A tool-call response appends one tool-result Message per
requested call, in the order returned by the model, and loops; a final reply
is appended and returned. -/
def sendLoop (reg : List Tool) : List EndpointResult → List Message → LoopOut
  | [], hist => ⟨hist, .error .endpointUnreachable, 1, 0⟩
  | .transportError :: _, hist => ⟨hist, .error .endpointUnreachable, 1, 0⟩
  | .invalidOutput :: _, hist => ⟨hist, .error .modelOutputInvalid, 1, 0⟩
  | .ok (.reply c) :: _, hist =>
    ⟨hist ++ [assistantMessage c], .ok (assistantMessage c), 1, 0⟩
  | .ok (.calls reqs _) :: rest, hist =>
    let out := sendLoop reg rest (hist ++ reqs.map (toolResultMessage reg))
    ⟨out.history, out.result, out.roundTrips + 1, out.invocations + reqs.length⟩

/-- Modelled from the spec: `send(user_text)` — reject a reentrant call with
`SessionBusy`, append the user Message (empty text included), run the
request/response/tool-call loop, and return to `Idle` on every exit. -/
def send (script : List EndpointResult) (s : Session) (text : String) : SendOutcome :=
  if s.state = EngState.idle then
    let out := sendLoop s.tools script (s.history ++ [userMessage text])
    { session := { s with history := out.history, state := .idle },
      result := out.result, roundTrips := out.roundTrips, invocations := out.invocations }
  else
    { session := s, result := .error .sessionBusy, roundTrips := 0, invocations := 0 }

/-- A finite sequence of `send` calls, each with its endpoint script and
user text, threaded through the session. -/
def runSends (s : Session) : List (List EndpointResult × String) → Session
  | [] => s
  | (script, text) :: rest => runSends (send script s text).session rest

/-! ## Swarm sorting engine -/

/-- Sorting instructions, as constructed in `test.py`
(`SortingInstructions(data_item_name=..., ...)`). -/
structure SortingInstructions where
  data_item_name : String
  data_profile_description : String
  item_sorting_guidelines : List String
  provided_categories : List String

/-- A SortResult: an ordered mapping from category name to the ordered list
of items assigned to it. -/
abbrev SortResult := List (String × List String)

/-- Modelled from the spec: the first `w - 1` shards each receive
`⌊L / w⌋` items in input order; the auxiliary takes `n` leading shards of
size `base` and a final shard absorbing the remainder. -/
def shardsAux (base : Nat) : Nat → List String → List (List String)
  | 0, rest => [rest]
  | n + 1, rest => rest.take base :: shardsAux base n (rest.drop base)

/-- Modelled from the spec: partition the item list into `w` roughly equal
shards, order within a shard preserved, the last shard absorbing the
remainder.  The partitioning lives in the compiled extension. -/
def splitShards (items : List String) (w : Nat) : List (List String) :=
  match w with
  | 0 => []
  | n + 1 => shardsAux (items.length / (n + 1)) n items

/-- Modelled from the spec: what one worker's single model call produces for
its shard — a partial category-to-items mapping, or a definitive failure
(`EndpointUnreachable`, `ModelOutputInvalid`, or a malformed shard
response). -/
inductive WorkerOutcome where
  | ok (assignments : List (String × List String))
  | failed
deriving Inhabited

/-- Modelled from the spec: add an item list to a category of the running
result by case-sensitive exact name match, concatenating when the category
exists and introducing it verbatim at the end when absent. -/
def addToCategory (res : SortResult) (cat : String) (its : List String) : SortResult :=
  match res with
  | [] => [(cat, its)]
  | (c, l) :: rest =>
    if c = cat then (c, l ++ its) :: rest else (c, l) :: addToCategory rest cat its

/-- Modelled from the spec: merge one worker's partial mapping into the
running result, category by category in the order the worker returned
them. -/
def mergeWorker (res : SortResult) (assignments : List (String × List String)) : SortResult :=
  assignments.foldl (fun r p => addToCategory r p.1 p.2) res

/-- Modelled from the spec: the running category set starts as the provided
categories, each initially empty. -/
def initialResult (provided : List String) : SortResult :=
  provided.map (fun c => (c, []))

/-- Modelled from the spec: the fan-in phase — merge the workers' outcomes in
fixed worker-index order; a failed worker's whole shard is placed into the
reserved `unsorted` category instead of aborting. -/
def mergeAll (provided : List String) (results : List (List String × WorkerOutcome)) :
    SortResult :=
  results.foldl
    (fun acc p =>
      match p.2 with
      | .ok a => mergeWorker acc a
      | .failed => addToCategory acc "unsorted" p.1)
    (initialResult provided)

/-- Pair each shard with its worker's outcome, workers indexed by shard
position. -/
def workerResults (worker : Nat → List String → WorkerOutcome)
    (items : List String) (w : Nat) : List (List String × WorkerOutcome) :=
  (splitShards items w).enum.map (fun p => (p.2, worker p.1 p.2))

/-- Modelled from the spec: the full sorting pipeline on an item list —
partition into shards, submit each shard to its worker, merge the partial
mappings. -/
def sortItems (worker : Nat → List String → WorkerOutcome) (items : List String)
    (provided : List String) (w : Nat) : SortResult :=
  mergeAll provided (workerResults worker items w)

/-- Sort-request error, from the spec's §7. -/
inductive SortError where
  | invalidSortRequest
deriving DecidableEq

/-- Modelled from the spec: `run_sorter` — exactly one of an in-memory item
list or an input file (modelled by the item list its JSON array contains)
must be supplied; supplying both or neither fails with `InvalidSortRequest`
before any work starts. -/
def runSorter (worker : Nat → List String → WorkerOutcome)
    (items_list : Option (List String)) (input_path : Option (List String))
    (provided : List String) (swarm_size : Nat) :
    Except SortError SortResult :=
  match items_list, input_path with
  | none, none => .error .invalidSortRequest
  | some _, some _ => .error .invalidSortRequest
  | some items, none => .ok (sortItems worker items provided swarm_size)
  | none, some items => .ok (sortItems worker items provided swarm_size)

/-- The number of times an item occurs across all category lists of a
result. -/
def resultCount (res : SortResult) (x : String) : Nat :=
  (res.map (fun p => p.2.count x)).sum

/-- The category names of a result, in order. -/
def resultKeys (res : SortResult) : List String :=
  res.map Prod.fst

/-- The item list a result assigns to a category (empty when the category is
absent). -/
def lookupCat (res : SortResult) (c : String) : List String :=
  ((res.find? (fun p => p.1 = c)).map Prod.snd).getD []

/-- How many occurrences of an item one worker entry contributes to the
merged result: a failed worker contributes its whole shard (to `unsorted`),
a successful one contributes its assignment lists. -/
def entryCount : List String × WorkerOutcome → String → Nat
  | (shard, .failed), x => shard.count x
  | (_, .ok a), x => (a.map (fun q => q.2.count x)).sum

/-- The items one worker entry contributes to a given category of the merged
result. -/
def contribCat : List String × WorkerOutcome → String → List String
  | (shard, .failed), c => if c = "unsorted" then shard else []
  | (_, .ok a), c => ((a.filter (fun q => q.1 = c)).map Prod.snd).flatten

/-- The category names one worker entry introduces into the merged result. -/
def entryKeys : List String × WorkerOutcome → List String
  | (_, .failed) => ["unsorted"]
  | (_, .ok a) => a.map Prod.fst

/-! ## Engine construction and the repository's Python surface -/

/-- Modelled from the spec: the engine-internal "current time" capability
enabled by `native_tools` (the payload is a placeholder — real time is an
external effect outside the model). -/
def get_current_time_tool : Tool :=
  { definition :=
      { name := "get_current_time", description := "Get the current time.",
        parameters :=
          { name := "get_current_time", description := "Get the current time.",
            properties := [] } },
    argNames := [],
    function := fun _ => .ok "12:00" }

/-- Modelled from the spec: registering one tool at engine construction —
the implementation's argument names must match the parameter schema's
property names, and names must be unique in the session's set. -/
def registerChecked (reg : List Tool) (t : Tool) : Except ToolError (List Tool) :=
  if toolWellFormed t then register reg t else .error .schemaViolation

/-- Register a list of tools in order, stopping at the first failure. -/
def registerAll : List Tool → List Tool → Except ToolError (List Tool)
  | reg, [] => .ok reg
  | reg, t :: ts =>
    match registerChecked reg t with
    | .ok reg2 => registerAll reg2 ts
    | .error e => .error e

/-- Modelled from the spec: Conversation Engine construction
(`Chat(model_name, system_prompt, native_tools, extra_tools, schema,
debug_out)`) — build the active tool set from the native tools (when
enabled) followed by the caller-supplied extra tools, and start with an
empty history in `Idle`. -/
def chatNew (model_name : String) (system_prompt : Option String) (native_tools : Bool)
    (extra_tools : List Tool) (schema : Option SimpleSchema) (debug_out : Bool) :
    Except ToolError Session :=
  match registerAll (if native_tools then [get_current_time_tool] else []) extra_tools with
  | .ok reg =>
    .ok { model_name := model_name, system_prompt := system_prompt, schema := schema,
          tools := reg, history := [], debug_out := debug_out, state := .idle }
  | .error e => .error e

/-- Embedded from `test.py`: `get_user_info` — a Python tool taking no
arguments and returning a hardcoded user profile. -/
def get_user_info (_u : Unit) : List (String × String) :=
  [("user_name", "John"), ("user_age", "30"), ("source", "python"),
   ("notes", "This data is hardcoded for simulation.")]

/-- Embedded from `test.py`: the `Tool` built in `tool_defs`, whose
parameter schema has an empty property list because the implementation takes
no arguments. -/
def get_user_info_tool : Tool :=
  { definition :=
      { name := "get_user_info",
        description := "Gets the current logged-in user's profile information.",
        parameters :=
          { name := "get_user_info",
            description := "Gets the current logged-in user's profile information.",
            properties := [] } },
    argNames := [],
    function := fun _ =>
      .ok (String.intercalate ","
        ((get_user_info ()).map (fun p => p.1 ++ "=" ++ p.2))) }

/-- Embedded from `test.py`: `tool_defs()` returns the single
`get_user_info` tool. -/
def tool_defs : List Tool :=
  [get_user_info_tool]

/-- Embedded from `test.py`: `MODEL_NAME`. -/
def MODEL_NAME : String := "GEMINI 2.0 FLASH"

/-- Embedded from `test.py`: `SYSTEM_PROMPT`. -/
def SYSTEM_PROMPT : String := "You are a helpful and concise assistant."

/-- Embedded from `test.py`: `build_system_prompt_with_tools`. -/
def build_system_prompt_with_tools (native_tools : Bool) (extra_tools : List Tool) : String :=
  let l1 := ["You have access to the following tools; use them when appropriate to answer the user's request."]
  let l2 := if native_tools then l1 ++ ["- get_current_time: Get the current time."] else l1
  let l3 := l2 ++ extra_tools.map (fun t => "- " ++ t.definition.name ++ ": " ++ t.definition.description)
  String.intercalate "\n" l3

/-- Embedded from `test.py`: `TOOLER_SYSTEM_PROMPT`. -/
def TOOLER_SYSTEM_PROMPT : String :=
  SYSTEM_PROMPT ++ "\n" ++ build_system_prompt_with_tools true tool_defs

/-- Embedded from `test.py`: the guard of `sort_data` — when both
`data_items` and `input_file` are supplied, or neither is, it reports an
error and returns without calling `run_sorter` (modelled as `none`);
otherwise it runs the sorter on whichever source was given. -/
def sort_data (worker : Nat → List String → WorkerOutcome)
    (data_items : Option (List String)) (input_file : Option (List String))
    (provided : List String) (swarm_size : Nat) :
    Option (Except SortError SortResult) :=
  match data_items, input_file with
  | none, none => none
  | some _, some _ => none
  | some items, none => some (runSorter worker (some items) none provided swarm_size)
  | none, some items => some (runSorter worker none (some items) provided swarm_size)

/-- Embedded from `llm_core/__init__.py`: the names imported from the
compiled `_llm_core` module into the package's top level, in source
order. -/
def importedNames : List String :=
  ["Chat", "Message", "run_sorter", "SchemaItems", "SchemaProperty",
   "SimpleSchema", "SortingInstructions", "Tool", "ToolDefinition"]

/-- Embedded from `llm_core/__init__.py`: the `__all__` list, in source
order. -/
def allExports : List String :=
  ["Chat", "Message", "run_sorter", "SchemaItems", "SchemaProperty",
   "SimpleSchema", "SortingInstructions", "Tool", "ToolDefinition"]

/-! ## Partition lemmas -/

theorem shardsAux_flatten (base : Nat) :
    ∀ (n : Nat) (rest : List String), (shardsAux base n rest).flatten = rest
  | 0, rest => by simp [shardsAux]
  | n + 1, rest => by
    simp [shardsAux, shardsAux_flatten base n]

theorem shardsAux_length (base : Nat) :
    ∀ (n : Nat) (rest : List String), (shardsAux base n rest).length = n + 1
  | 0, _ => by simp [shardsAux]
  | n + 1, rest => by simp [shardsAux, shardsAux_length base n]

theorem shardsAux_getD (base : Nat) :
    ∀ (n : Nat) (rest : List String), base * n ≤ rest.length →
      ∀ i : Nat, i < n → ((shardsAux base n rest).getD i []).length = base
  | 0, _, _, i, hi => absurd hi (Nat.not_lt_zero i)
  | n + 1, rest, hlen, 0, _ => by
    have hbase : base ≤ rest.length := by
      calc base = base * 1 := (Nat.mul_one base).symm
        _ ≤ base * (n + 1) := Nat.mul_le_mul_left base (Nat.succ_le_succ (Nat.zero_le n))
        _ ≤ rest.length := hlen
    simp [shardsAux, List.length_take_of_le hbase]
  | n + 1, rest, hlen, i + 1, hi => by
    have hrec : base * n ≤ (rest.drop base).length := by
      rw [List.length_drop]
      have hsucc : base * (n + 1) = base * n + base := Nat.mul_succ base n
      omega
    have := shardsAux_getD base n (rest.drop base) hrec i (Nat.lt_of_succ_lt_succ hi)
    simpa [shardsAux] using this

theorem splitShards_flatten (items : List String) (w : Nat) (hw : 0 < w) :
    (splitShards items w).flatten = items := by
  match w, hw with
  | n + 1, _ => exact shardsAux_flatten _ n items

theorem splitShards_length (items : List String) (w : Nat) (hw : 0 < w) :
    (splitShards items w).length = w := by
  match w, hw with
  | n + 1, _ => exact shardsAux_length _ n items

/-- C3: for every item list of length `L` and worker count `W` with
`0 < W ≤ L`, the partition yields `W` shards; their concatenation in shard
order is the input list itself (so the sizes sum to `L`, every input item
occurrence lands in exactly one shard, and order within shards is the input
order), and every shard but the last has exactly `⌊L / W⌋` items, the last
absorbing the remainder. -/
theorem splitShards_partition (items : List String) (w : Nat)
    (h1 : 0 < w) (h2 : w ≤ items.length) :
    (splitShards items w).length = w ∧
    (splitShards items w).flatten = items ∧
    ((splitShards items w).map List.length).sum = items.length ∧
    (∀ x : String,
      ((splitShards items w).map (fun s => s.count x)).sum = items.count x) ∧
    (∀ i : Nat, i + 1 < w →
      ((splitShards items w).getD i []).length = items.length / w) := by
  refine ⟨splitShards_length items w h1, splitShards_flatten items w h1, ?_, ?_, ?_⟩
  · rw [← List.length_flatten, splitShards_flatten items w h1]
  · intro x
    rw [← List.count_flatten, splitShards_flatten items w h1]
  · intro i hi
    match w, h1, hi with
    | n + 1, _, hi =>
      have hlen : items.length / (n + 1) * n ≤ items.length := by
        have := Nat.div_mul_le_self items.length (n + 1)
        have hle : items.length / (n + 1) * n ≤ items.length / (n + 1) * (n + 1) :=
          Nat.mul_le_mul_left _ (Nat.le_succ n)
        omega
      exact shardsAux_getD _ n items (by omega) i (by omega)

/-- Witness for C3 at the spec's shapes: seven items over three workers. -/
theorem splitShards_partition_witness :
    0 < 3 ∧ 3 ≤ 7 ∧
    (splitShards ["a", "b", "c", "d", "e", "f", "g"] 3).length = 3 ∧
    (splitShards ["a", "b", "c", "d", "e", "f", "g"] 3).flatten =
      ["a", "b", "c", "d", "e", "f", "g"] := by
  have h := splitShards_partition ["a", "b", "c", "d", "e", "f", "g"] 3
    (by decide) (by decide)
  exact ⟨by decide, by decide, h.1, h.2.1⟩

/-! ## Merge lemmas -/

theorem resultCount_addToCategory (res : SortResult) (cat : String) (its : List String)
    (x : String) :
    resultCount (addToCategory res cat its) x = resultCount res x + its.count x := by
  induction res with
  | nil => simp [addToCategory, resultCount]
  | cons hd tl ih =>
    obtain ⟨c, l⟩ := hd
    by_cases hc : c = cat
    · simp [addToCategory, hc, resultCount]
      omega
    · simp [addToCategory, hc, resultCount] at ih ⊢
      omega

theorem resultCount_mergeWorker (assignments : List (String × List String)) :
    ∀ (res : SortResult) (x : String),
      resultCount (mergeWorker res assignments) x =
        resultCount res x + (assignments.map (fun q => q.2.count x)).sum := by
  induction assignments with
  | nil => simp [mergeWorker]
  | cons hd tl ih =>
    intro res x
    simp only [mergeWorker, List.foldl_cons] at ih ⊢
    rw [ih, resultCount_addToCategory]
    simp
    omega

theorem resultCount_initialResult (provided : List String) (x : String) :
    resultCount (initialResult provided) x = 0 := by
  induction provided with
  | nil => simp [initialResult, resultCount]
  | cons hd tl ih =>
    simp [initialResult, resultCount] at ih ⊢
    exact ih

theorem resultCount_mergeFold (results : List (List String × WorkerOutcome)) :
    ∀ (acc : SortResult) (x : String),
      resultCount
        (results.foldl
          (fun acc p =>
            match p.2 with
            | .ok a => mergeWorker acc a
            | .failed => addToCategory acc "unsorted" p.1)
          acc) x =
        resultCount acc x + (results.map (fun e => entryCount e x)).sum := by
  induction results with
  | nil => simp
  | cons hd tl ih =>
    intro acc x
    obtain ⟨shard, outcome⟩ := hd
    cases outcome with
    | ok a =>
      simp only [List.foldl_cons, List.map_cons, List.sum_cons]
      rw [ih, resultCount_mergeWorker]
      simp [entryCount]
      omega
    | failed =>
      simp only [List.foldl_cons, List.map_cons, List.sum_cons]
      rw [ih, resultCount_addToCategory]
      simp [entryCount]
      omega

theorem resultCount_mergeAll (provided : List String)
    (results : List (List String × WorkerOutcome)) (x : String) :
    resultCount (mergeAll provided results) x =
      (results.map (fun e => entryCount e x)).sum := by
  rw [mergeAll, resultCount_mergeFold, resultCount_initialResult]
  simp

theorem mem_resultKeys_addToCategory (res : SortResult) (cat : String) (its : List String)
    (y : String) :
    y ∈ resultKeys (addToCategory res cat its) ↔ y ∈ resultKeys res ∨ y = cat := by
  induction res with
  | nil => simp [addToCategory, resultKeys]
  | cons hd tl ih =>
    obtain ⟨c, l⟩ := hd
    by_cases hc : c = cat
    · subst hc
      simp [addToCategory, resultKeys]
      tauto
    · simp [addToCategory, hc, resultKeys] at ih ⊢
      tauto

theorem mem_resultKeys_mergeWorker (assignments : List (String × List String)) :
    ∀ (res : SortResult) (y : String),
      y ∈ resultKeys (mergeWorker res assignments) ↔
        y ∈ resultKeys res ∨ y ∈ assignments.map Prod.fst := by
  induction assignments with
  | nil => simp [mergeWorker]
  | cons hd tl ih =>
    intro res y
    simp only [mergeWorker, List.foldl_cons] at ih ⊢
    rw [ih, mem_resultKeys_addToCategory]
    simp
    tauto

theorem resultKeys_initialResult (provided : List String) :
    resultKeys (initialResult provided) = provided := by
  induction provided with
  | nil => rfl
  | cons hd tl ih =>
    simpa [initialResult, resultKeys] using ih

theorem mem_resultKeys_mergeFold (results : List (List String × WorkerOutcome)) :
    ∀ (acc : SortResult) (y : String),
      y ∈ resultKeys
          (results.foldl
            (fun acc p =>
              match p.2 with
              | .ok a => mergeWorker acc a
              | .failed => addToCategory acc "unsorted" p.1)
            acc) ↔
        y ∈ resultKeys acc ∨ ∃ e ∈ results, y ∈ entryKeys e := by
  induction results with
  | nil => simp
  | cons hd tl ih =>
    intro acc y
    obtain ⟨shard, outcome⟩ := hd
    cases outcome with
    | ok a =>
      simp only [List.foldl_cons]
      rw [ih, mem_resultKeys_mergeWorker]
      simp [entryKeys]
      tauto
    | failed =>
      simp only [List.foldl_cons]
      rw [ih, mem_resultKeys_addToCategory]
      simp [entryKeys]
      tauto

theorem mem_resultKeys_mergeAll (provided : List String)
    (results : List (List String × WorkerOutcome)) (y : String) :
    y ∈ resultKeys (mergeAll provided results) ↔
      y ∈ provided ∨ ∃ e ∈ results, y ∈ entryKeys e := by
  rw [mergeAll, mem_resultKeys_mergeFold, resultKeys_initialResult]

theorem lookupCat_addToCategory (res : SortResult) (cat : String) (its : List String)
    (d : String) :
    lookupCat (addToCategory res cat its) d =
      lookupCat res d ++ if cat = d then its else [] := by
  induction res with
  | nil =>
    by_cases hc : cat = d
    · simp [addToCategory, lookupCat, hc]
    · simp [addToCategory, lookupCat, hc]
  | cons hd tl ih =>
    obtain ⟨c, l⟩ := hd
    by_cases hc : c = cat
    · subst hc
      by_cases hd' : c = d
      · subst hd'
        simp [addToCategory, lookupCat]
      · simp [addToCategory, lookupCat, hd']
    · by_cases hd' : c = d
      · subst hd'
        have hcd : ¬ cat = c := fun h => hc h.symm
        simp [addToCategory, lookupCat, hc, hcd]
      · simp [addToCategory, lookupCat, hc, hd'] at ih ⊢
        exact ih

theorem lookupCat_mergeWorker (assignments : List (String × List String)) :
    ∀ (res : SortResult) (d : String),
      lookupCat (mergeWorker res assignments) d =
        lookupCat res d ++
          ((assignments.filter (fun q => q.1 = d)).map Prod.snd).flatten := by
  induction assignments with
  | nil => simp [mergeWorker]
  | cons hd tl ih =>
    intro res d
    obtain ⟨c, l⟩ := hd
    simp only [mergeWorker, List.foldl_cons] at ih ⊢
    rw [ih, lookupCat_addToCategory]
    by_cases hc : c = d
    · simp [hc]
    · simp [hc]

theorem lookupCat_initialResult (provided : List String) (d : String) :
    lookupCat (initialResult provided) d = [] := by
  induction provided with
  | nil => simp [initialResult, lookupCat]
  | cons hd tl ih =>
    by_cases hc : hd = d
    · simp [initialResult, lookupCat, hc]
    · simp [initialResult, lookupCat, hc] at ih ⊢
      exact ih

theorem lookupCat_mergeFold (results : List (List String × WorkerOutcome)) :
    ∀ (acc : SortResult) (d : String),
      lookupCat
          (results.foldl
            (fun acc p =>
              match p.2 with
              | .ok a => mergeWorker acc a
              | .failed => addToCategory acc "unsorted" p.1)
            acc) d =
        lookupCat acc d ++ (results.map (fun e => contribCat e d)).flatten := by
  induction results with
  | nil => simp
  | cons hd tl ih =>
    intro acc d
    obtain ⟨shard, outcome⟩ := hd
    cases outcome with
    | ok a =>
      simp only [List.foldl_cons]
      rw [ih, lookupCat_mergeWorker]
      simp [contribCat]
    | failed =>
      simp only [List.foldl_cons]
      rw [ih, lookupCat_addToCategory]
      by_cases hc : d = "unsorted"
      · simp [contribCat, hc]
      · have : ¬ ("unsorted" = d) := fun h => hc h.symm
        simp [contribCat, hc, this]

theorem lookupCat_mergeAll (provided : List String)
    (results : List (List String × WorkerOutcome)) (d : String) :
    lookupCat (mergeAll provided results) d =
      (results.map (fun e => contribCat e d)).flatten := by
  rw [mergeAll, lookupCat_mergeFold, lookupCat_initialResult]
  simp

/-! ## Sorting engine theorems -/

/-- C1: for every sort invocation whose workers all complete (each returning
an assignment covering exactly its shard's items), the merged SortResult
contains every input item exactly once across all category lists, its
category set is the provided categories together with the categories the
workers introduced, and each category's list is the concatenation, in fixed
worker-index order, of the workers' lists for that exact category name. -/
theorem sort_merge_invariant (worker : Nat → List String → WorkerOutcome)
    (items provided : List String) (w : Nat) (hw : 0 < w)
    (hcomplete : ∀ p ∈ (splitShards items w).enum, ∃ a,
      worker p.1 p.2 = WorkerOutcome.ok a ∧
      ∀ x : String, (a.map (fun q => q.2.count x)).sum = p.2.count x) :
    (∀ x : String, resultCount (sortItems worker items provided w) x = items.count x) ∧
    (∀ y : String, y ∈ resultKeys (sortItems worker items provided w) ↔
      y ∈ provided ∨ ∃ e ∈ workerResults worker items w, y ∈ entryKeys e) ∧
    (∀ c : String, lookupCat (sortItems worker items provided w) c =
      ((workerResults worker items w).map (fun e => contribCat e c)).flatten) := by
  refine ⟨?_, ?_, ?_⟩
  · intro x
    rw [sortItems, resultCount_mergeAll, workerResults, List.map_map]
    have hmap : (splitShards items w).enum.map
        ((fun e => entryCount e x) ∘ fun p => (p.2, worker p.1 p.2)) =
        (splitShards items w).enum.map (fun p => p.2.count x) := by
      apply List.map_eq_map_iff.mpr
      intro p hp
      obtain ⟨a, ha, hcount⟩ := hcomplete p hp
      simp [Function.comp, ha, entryCount, hcount]
    rw [hmap,
      show (fun (p : Nat × List String) => p.2.count x) =
        ((fun s : List String => s.count x) ∘ Prod.snd) from rfl,
      ← List.map_map, List.enum_map_snd, ← List.count_flatten,
      splitShards_flatten items w hw]
  · intro y
    rw [sortItems, mem_resultKeys_mergeAll]
  · intro c
    rw [sortItems, lookupCat_mergeAll]

/-- Witness for C1: the spec's stub — items `A B C D`, two workers returning
`cat1 -> [A, B]` and `cat2 -> [C, D]`. -/
theorem sort_merge_invariant_witness :
    (0 : Nat) < 2 ∧
    (∀ x : String,
      resultCount
        (sortItems
          (fun i _ =>
            if i = 0 then WorkerOutcome.ok [("cat1", ["A", "B"])]
            else WorkerOutcome.ok [("cat2", ["C", "D"])])
          ["A", "B", "C", "D"] [] 2) x =
        (["A", "B", "C", "D"]).count x) ∧
    sortItems
        (fun i _ =>
          if i = 0 then WorkerOutcome.ok [("cat1", ["A", "B"])]
          else WorkerOutcome.ok [("cat2", ["C", "D"])])
        ["A", "B", "C", "D"] [] 2 =
      [("cat1", ["A", "B"]), ("cat2", ["C", "D"])] := by
  refine ⟨by decide, ?_, rfl⟩
  refine (sort_merge_invariant _ ["A", "B", "C", "D"] [] 2 (by decide) ?_).1
  intro p hp
  have hs : (splitShards ["A", "B", "C", "D"] 2).enum =
      [(0, ["A", "B"]), (1, ["C", "D"])] := rfl
  rw [hs] at hp
  simp only [List.mem_cons, List.not_mem_nil, or_false] at hp
  rcases hp with h | h <;> subst h
  · exact ⟨[("cat1", ["A", "B"])], rfl, by intro x; simp⟩
  · exact ⟨[("cat2", ["C", "D"])], rfl, by intro x; simp⟩

/-- C4: when some workers fail, `sort` still returns a result (the pipeline
never aborts): each failed worker's entire shard goes to the reserved
`unsorted` category — which is exactly the concatenation of the failed
shards in worker order, provided successful workers never propose
`unsorted` — and every other category holds exactly the successful workers'
assignments. -/
theorem sort_partial_failure (worker : Nat → List String → WorkerOutcome)
    (items provided : List String) (w : Nat)
    (hres : ∀ p ∈ (splitShards items w).enum, ∀ a,
      worker p.1 p.2 = WorkerOutcome.ok a → "unsorted" ∉ a.map Prod.fst) :
    runSorter worker (some items) none provided w =
      .ok (sortItems worker items provided w) ∧
    lookupCat (sortItems worker items provided w) "unsorted" =
      ((splitShards items w).enum.map (fun p =>
        match worker p.1 p.2 with
        | .ok _ => []
        | .failed => p.2)).flatten ∧
    (∀ p ∈ (splitShards items w).enum, worker p.1 p.2 = WorkerOutcome.failed →
      ∀ x ∈ p.2, x ∈ lookupCat (sortItems worker items provided w) "unsorted") ∧
    (∀ c : String, c ≠ "unsorted" →
      lookupCat (sortItems worker items provided w) c =
        ((splitShards items w).enum.map (fun p =>
          match worker p.1 p.2 with
          | .ok a => ((a.filter (fun q => q.1 = c)).map Prod.snd).flatten
          | .failed => [])).flatten) := by
  have h2 : lookupCat (sortItems worker items provided w) "unsorted" =
      ((splitShards items w).enum.map (fun p =>
        match worker p.1 p.2 with
        | .ok _ => []
        | .failed => p.2)).flatten := by
    rw [sortItems, lookupCat_mergeAll, workerResults, List.map_map]
    apply congrArg List.flatten
    apply List.map_eq_map_iff.mpr
    intro p hp
    cases hwp : worker p.1 p.2 with
    | ok a =>
      have hfilter : a.filter (fun q => q.1 = "unsorted") = [] := by
        apply List.filter_eq_nil_iff.mpr
        intro q hq
        have := hres p hp a hwp
        simp only [List.mem_map] at this
        simp only [decide_eq_true_eq]
        exact fun hcontra => this ⟨q, hq, hcontra⟩
      simp [Function.comp, contribCat, hwp, hfilter]
    | failed =>
      simp [Function.comp, contribCat, hwp]
  refine ⟨rfl, h2, ?_, ?_⟩
  · intro p hp hfail x hx
    rw [h2]
    apply List.mem_flatten.mpr
    refine ⟨p.2, List.mem_map.mpr ⟨p, hp, by rw [hfail]⟩, hx⟩
  · intro c hc
    rw [sortItems, lookupCat_mergeAll, workerResults, List.map_map]
    apply congrArg List.flatten
    apply List.map_eq_map_iff.mpr
    intro p _
    cases hwp : worker p.1 p.2 with
    | ok a => simp [Function.comp, contribCat, hwp]
    | failed =>
      simp only [Function.comp, contribCat, hwp]
      rw [if_neg hc]

/-- Witness for C4: the spec's partial-failure stub — worker 1 succeeds with
`cat1 -> [A, B]`, worker 2 fails; the result is
`cat1 -> [A, B], unsorted -> [C, D]`. -/
theorem sort_partial_failure_witness :
    runSorter
        (fun i _ => if i = 0 then WorkerOutcome.ok [("cat1", ["A", "B"])]
          else WorkerOutcome.failed)
        (some ["A", "B", "C", "D"]) none [] 2 =
      .ok [("cat1", ["A", "B"]), ("unsorted", ["C", "D"])] ∧
    lookupCat
        (sortItems
          (fun i _ => if i = 0 then WorkerOutcome.ok [("cat1", ["A", "B"])]
            else WorkerOutcome.failed)
          ["A", "B", "C", "D"] [] 2) "unsorted" = ["C", "D"] := by
  have h := sort_partial_failure
    (fun i _ => if i = 0 then WorkerOutcome.ok [("cat1", ["A", "B"])]
      else WorkerOutcome.failed)
    ["A", "B", "C", "D"] [] 2 ?hres
  case hres =>
    intro p hp a ha
    have hs : (splitShards ["A", "B", "C", "D"] 2).enum =
        [(0, ["A", "B"]), (1, ["C", "D"])] := rfl
    rw [hs] at hp
    simp only [List.mem_cons, List.not_mem_nil, or_false] at hp
    rcases hp with hpe | hpe <;> subst hpe
    · simp only [show (0 : Nat) = 0 from rfl, if_pos rfl] at ha
      cases ha
      decide
    · exact absurd ha (by simp)
  refine ⟨?_, ?_⟩
  · rw [h.1]
    rfl
  · rw [h.2.1]
    rfl

/-- C5: a sort request must supply exactly one of an in-memory item list and
an input file; with neither or both, `run_sorter` fails with
`InvalidSortRequest` whatever the workers would have done (so before any
partitioning, dispatch, or remote call), and the `sort_data` harness guard
likewise returns without invoking the sorter. -/
theorem sort_request_validation :
    (∀ (worker : Nat → List String → WorkerOutcome) (provided : List String) (w : Nat),
      runSorter worker none none provided w = .error .invalidSortRequest ∧
      sort_data worker none none provided w = none) ∧
    (∀ (worker : Nat → List String → WorkerOutcome)
      (items path provided : List String) (w : Nat),
      runSorter worker (some items) (some path) provided w = .error .invalidSortRequest ∧
      sort_data worker (some items) (some path) provided w = none) :=
  ⟨fun _ _ _ => ⟨rfl, rfl⟩, fun _ _ _ _ _ => ⟨rfl, rfl⟩⟩

/-- C8: registry misuse — registering a tool whose name is already active
fails with `DuplicateToolName` (the registry is only replaced on success, so
the active set is unchanged); resolving an absent name fails with
`UnknownTool`; resolving a present name with arguments failing its parameter
schema yields `SchemaViolation` for every possible implementation, so the
implementation is never invoked. -/
theorem tool_registry_misuse :
    (∀ (reg : List Tool) (t : Tool),
      reg.any (fun u => u.definition.name = t.definition.name) = true →
      register reg t = .error .duplicateToolName) ∧
    (∀ (reg : List Tool) (name : String) (args : List (String × JValue)),
      reg.find? (fun u => u.definition.name = name) = none →
      resolve reg name args = .error .unknownTool) ∧
    (∀ (reg : List Tool) (name : String) (args : List (String × JValue)) (t : Tool),
      reg.find? (fun u => u.definition.name = name) = some t →
      validateArgs t.definition.parameters args = false →
      resolve reg name args = .error .schemaViolation) := by
  refine ⟨?_, ?_, ?_⟩
  · intro reg t hdup
    rw [register, if_pos hdup]
  · intro reg name args hnone
    rw [resolve, hnone]
  · intro reg name args t hfind hval
    rw [resolve, hfind]
    simp [hval]

/-- Witness for C8: two tools named `lookup` collide; `missing` is unknown;
a string argument where `lookup`'s schema declares an integer is rejected. -/
theorem tool_registry_misuse_witness :
    register
        [⟨⟨"lookup", "looks a value up",
          ⟨"lookup", "lookup parameters", [⟨"x", "integer", "the key"⟩]⟩⟩,
          ["x"], fun _ => .ok "first"⟩]
        ⟨⟨"lookup", "a second lookup",
          ⟨"lookup", "lookup parameters", [⟨"x", "integer", "the key"⟩]⟩⟩,
          ["x"], fun _ => .ok "second"⟩ =
      .error .duplicateToolName ∧
    resolve [] "missing" [] = .error .unknownTool ∧
    resolve
        [⟨⟨"lookup", "looks a value up",
          ⟨"lookup", "lookup parameters", [⟨"x", "integer", "the key"⟩]⟩⟩,
          ["x"], fun _ => .ok "first"⟩]
        "lookup" [("x", .str "y")] =
      .error .schemaViolation := by
  refine ⟨?_, ?_, ?_⟩
  · exact tool_registry_misuse.1 _ _ (by decide)
  · exact tool_registry_misuse.2.1 _ _ _ rfl
  · exact tool_registry_misuse.2.2 _ _ _ _ rfl (by decide)

/-! ## Conversation engine lemmas -/

theorem sendLoop_calls (reg : List Tool) (final : String) :
    ∀ (turns : List (ToolCallReq × String)) (hist : List Message),
      sendLoop reg
          (turns.map (fun p => EndpointResult.ok (.calls [p.1] p.2)) ++
            [.ok (.reply final)])
          hist =
        ⟨hist ++ turns.map (fun p => toolResultMessage reg p.1) ++ [assistantMessage final],
          .ok (assistantMessage final), turns.length + 1, turns.length⟩
  | [], hist => by simp [sendLoop]
  | (req, c) :: rest, hist => by
    have ih := sendLoop_calls reg final rest (hist ++ [toolResultMessage reg req])
    simp only [List.map_cons, List.cons_append]
    rw [sendLoop]
    simp only [List.map_cons, List.map_nil]
    rw [ih]
    simp [List.append_assoc]

theorem sendLoop_extends (reg : List Tool) :
    ∀ (script : List EndpointResult) (hist : List Message),
      ∃ new, (sendLoop reg script hist).history = hist ++ new
  | [], hist => ⟨[], by simp [sendLoop]⟩
  | .transportError :: _, hist => ⟨[], by simp [sendLoop]⟩
  | .invalidOutput :: _, hist => ⟨[], by simp [sendLoop]⟩
  | .ok (.reply c) :: _, hist => ⟨[assistantMessage c], by simp [sendLoop]⟩
  | .ok (.calls reqs c) :: rest, hist => by
    obtain ⟨new, hnew⟩ :=
      sendLoop_extends reg rest (hist ++ reqs.map (toolResultMessage reg))
    exact ⟨reqs.map (toolResultMessage reg) ++ new, by
      simp [sendLoop, hnew, List.append_assoc]⟩

theorem send_extends (s : Session) (script : List EndpointResult) (text : String) :
    ∃ new, (send script s text).session.history = s.history ++ new := by
  by_cases hidle : s.state = EngState.idle
  · obtain ⟨new, hnew⟩ := sendLoop_extends s.tools script (s.history ++ [userMessage text])
    exact ⟨userMessage text :: new, by simp [send, hidle, hnew]⟩
  · exact ⟨[], by simp [send, hidle]⟩

theorem runSends_extends (steps : List (List EndpointResult × String)) :
    ∀ s : Session, ∃ new, (runSends s steps).history = s.history ++ new := by
  induction steps with
  | nil => exact fun s => ⟨[], by simp [runSends]⟩
  | cons hd tl ih =>
    intro s
    obtain ⟨script, text⟩ := hd
    obtain ⟨new1, h1⟩ := send_extends s script text
    obtain ⟨new2, h2⟩ := ih (send script s text).session
    exact ⟨new1 ++ new2, by simp [runSends, h2, h1, List.append_assoc]⟩

/-! ## Conversation engine theorems -/

/-- C2: against an endpoint that answers with a single tool call `K` times
and then a final reply, one `send` performs exactly `K` tool invocations —
appending, in the order the model returned them, one tool-result Message per
call — makes `K + 1` round trips, returns the final assistant message, and
lands back in `Idle`. -/
theorem send_tool_call_loop (s : Session) (text final : String)
    (turns : List (ToolCallReq × String)) (hidle : s.state = EngState.idle) :
    (send (turns.map (fun p => EndpointResult.ok (.calls [p.1] p.2)) ++
        [.ok (.reply final)]) s text).result = .ok (assistantMessage final) ∧
    (send (turns.map (fun p => EndpointResult.ok (.calls [p.1] p.2)) ++
        [.ok (.reply final)]) s text).roundTrips = turns.length + 1 ∧
    (send (turns.map (fun p => EndpointResult.ok (.calls [p.1] p.2)) ++
        [.ok (.reply final)]) s text).invocations = turns.length ∧
    (send (turns.map (fun p => EndpointResult.ok (.calls [p.1] p.2)) ++
        [.ok (.reply final)]) s text).session.history =
      s.history ++ [userMessage text] ++
        turns.map (fun p => toolResultMessage s.tools p.1) ++ [assistantMessage final] ∧
    (send (turns.map (fun p => EndpointResult.ok (.calls [p.1] p.2)) ++
        [.ok (.reply final)]) s text).session.state = EngState.idle := by
  simp [send, hidle, sendLoop_calls s.tools final turns (s.history ++ [userMessage text]),
    List.append_assoc]

/-- Witness for C2 at `K = 2`: two single-call turns, then a final reply. -/
theorem send_tool_call_loop_witness :
    (send
        ([(⟨"t1", []⟩, ""), (⟨"t2", []⟩, "")].map
            (fun p => EndpointResult.ok (.calls [p.1] p.2)) ++
          [.ok (.reply "done")])
        ⟨"m", none, none, [], [], false, .idle⟩ "hi").result =
      .ok (assistantMessage "done") ∧
    (send
        ([(⟨"t1", []⟩, ""), (⟨"t2", []⟩, "")].map
            (fun p => EndpointResult.ok (.calls [p.1] p.2)) ++
          [.ok (.reply "done")])
        ⟨"m", none, none, [], [], false, .idle⟩ "hi").roundTrips = 3 ∧
    (send
        ([(⟨"t1", []⟩, ""), (⟨"t2", []⟩, "")].map
            (fun p => EndpointResult.ok (.calls [p.1] p.2)) ++
          [.ok (.reply "done")])
        ⟨"m", none, none, [], [], false, .idle⟩ "hi").invocations = 2 := by
  have h := send_tool_call_loop ⟨"m", none, none, [], [], false, .idle⟩ "hi" "done"
    [(⟨"t1", []⟩, ""), (⟨"t2", []⟩, "")] rfl
  exact ⟨h.1, h.2.1, h.2.2.1⟩

/-- C6: when the round trip carrying the user's turn fails with a transport
error, `send` surfaces `EndpointUnreachable`, the session is back in `Idle`,
and the history is exactly the prior history with the one user Message
appended — no assistant or tool-result message. -/
theorem send_transport_failure (s : Session) (text : String)
    (rest : List EndpointResult) (hidle : s.state = EngState.idle) :
    (send (.transportError :: rest) s text).result = .error .endpointUnreachable ∧
    (send (.transportError :: rest) s text).session.state = EngState.idle ∧
    (send (.transportError :: rest) s text).session.history =
      s.history ++ [userMessage text] := by
  simp [send, hidle, sendLoop]

/-- Witness for C6: a fresh idle session whose first round trip fails. -/
theorem send_transport_failure_witness :
    (send [.transportError] ⟨"m", none, none, [], [], false, .idle⟩ "hello").result =
      .error .endpointUnreachable ∧
    (send [.transportError] ⟨"m", none, none, [], [], false, .idle⟩ "hello").session.history =
      [userMessage "hello"] := by
  have h := send_transport_failure ⟨"m", none, none, [], [], false, .idle⟩ "hello" [] rfl
  exact ⟨h.1, by rw [h.2.2]; rfl⟩

/-- C7: message history is append-only — every `send` starting from `Idle`
appends the user Message followed only by further messages (so its length
strictly increases and no prior entry is mutated or removed), and any finite
sequence of `send` calls only ever extends the history. -/
theorem history_append_only (s : Session) (hidle : s.state = EngState.idle) :
    (∀ (script : List EndpointResult) (text : String), ∃ new,
      (send script s text).session.history = s.history ++ userMessage text :: new) ∧
    (∀ (script : List EndpointResult) (text : String),
      s.history.length < (send script s text).session.history.length) ∧
    (∀ steps : List (List EndpointResult × String), ∃ new,
      (runSends s steps).history = s.history ++ new) := by
  have hsend : ∀ (script : List EndpointResult) (text : String), ∃ new,
      (send script s text).session.history = s.history ++ userMessage text :: new := by
    intro script text
    obtain ⟨new, hnew⟩ := sendLoop_extends s.tools script (s.history ++ [userMessage text])
    exact ⟨new, by simp [send, hidle, hnew]⟩
  refine ⟨hsend, ?_, fun steps => runSends_extends steps s⟩
  intro script text
  obtain ⟨new, hnew⟩ := hsend script text
  rw [hnew]
  simp

/-- Witness for C7: one successful turn on a fresh idle session. -/
theorem history_append_only_witness :
    (∃ new,
      (send [.ok (.reply "ok")] ⟨"m", none, none, [], [], false, .idle⟩ "hi").session.history =
        userMessage "hi" :: new) ∧
    (0 : Nat) <
      (send [.ok (.reply "ok")]
        ⟨"m", none, none, [], [], false, .idle⟩ "hi").session.history.length := by
  have h := history_append_only ⟨"m", none, none, [], [], false, .idle⟩ rfl
  obtain ⟨new, hnew⟩ := h.1 [.ok (.reply "ok")] "hi"
  exact ⟨⟨new, by simpa using hnew⟩, h.2.1 [.ok (.reply "ok")] "hi"⟩

/-! ## Construction and surface theorems -/

/-- C9: the `get_user_info` tool of `test.py` pairs an empty-property
`SimpleSchema` with an implementation taking no arguments — so the
requirement that argument names match property names holds vacuously — and
Conversation Engine construction with `tooler_chat`'s configuration
(`native_tools` on, this tool as `extra_tools`) accepts it, yielding a
session whose active set holds the native time tool and the zero-parameter
Python tool. -/
theorem zero_parameter_tool_accepted :
    get_user_info_tool.definition.parameters.properties = [] ∧
    get_user_info_tool.argNames = [] ∧
    toolWellFormed get_user_info_tool = true ∧
    (∃ s : Session,
      chatNew MODEL_NAME (some TOOLER_SYSTEM_PROMPT) true tool_defs none true = .ok s ∧
      s.tools.map (fun t => t.definition.name) = ["get_current_time", "get_user_info"]) :=
  ⟨rfl, rfl, rfl, ⟨_, rfl, rfl⟩⟩

/-- C10: the package re-exports exactly nine names from the compiled module
and `__all__` lists exactly the same nine, `SchemaItems` among them. -/
theorem public_surface_exports :
    importedNames = allExports ∧
    allExports.length = 9 ∧
    allExports.Nodup ∧
    allExports = ["Chat", "Message", "run_sorter", "SchemaItems", "SchemaProperty",
      "SimpleSchema", "SortingInstructions", "Tool", "ToolDefinition"] ∧
    "SchemaItems" ∈ allExports := by
  refine ⟨rfl, rfl, ?_, rfl, ?_⟩ <;> decide

end LlmCore
